import Mathlib

/-!
Verification of the field/checkbox structural-extraction engine of the
pdf_checkbox_poc repository against its natural-language specification.

The Python source is shallowly embedded:
* Python floats are modelled as exact rationals (all constants in the source
  are short decimals, and every comparison in the claims is robust to this
  modelling).
* Python strings are modelled as lists of characters; slicing, strip() and
  lower()/upper() are given explicit executable models.
* Loosely structured OCR objects probed with hasattr/getattr are modelled as
  records whose optional attributes are Option fields; a protobuf-style
  sub-message that always carries its list attribute (bounding_poly /
  normalized_vertices, text_anchor / text_segments) is collapsed into the
  list itself.
* Euclidean distances (which the source obtains with ** 0.5) are carried as
  their squares; every comparison the source makes on a distance d against a
  nonnegative bound t is embedded as the equivalent comparison of d^2 with
  t^2, and the multiplicative weights 0.8 / 0.9 on distances become the
  weights 0.64 / 0.81 on squared distances.  This is an exact, order-faithful
  encoding of the source's real-number semantics.
-/

namespace PdfCheckbox

/-! ## Python string helpers -/

/-- Characters counted as whitespace by the model of str.strip(). -/
def pyWs (c : Char) : Bool := c.isWhitespace

/-- Model of Python str.strip(): drop leading and trailing whitespace. -/
def pyStrip (s : List Char) : List Char :=
  ((s.dropWhile pyWs).reverse.dropWhile pyWs).reverse

/-- Model of Python str.lower() (character-wise lowercasing). -/
def pyLower (s : List Char) : List Char := s.map Char.toLower

/-- Model of Python str.upper() (character-wise uppercasing). -/
def pyUpper (s : List Char) : List Char := s.map Char.toUpper

/-- Model of the Python slice text[start:end] for natural indices. -/
def pySlice (text : List Char) (start stop : Nat) : List Char :=
  (text.drop start).take (stop - start)

/-- Decimal digit character of d (for d < 10). -/
def digitChar (d : Nat) : Char := Char.ofNat (48 + d)

/-- Decimal rendering of a natural number, as produced by Python str()/format. -/
def natToCharsAux (n : Nat) (acc : List Char) : List Char :=
  let acc' := digitChar (n % 10) :: acc
  if h : n < 10 then acc' else natToCharsAux (n / 10) acc'
termination_by n
decreasing_by exact Nat.div_lt_self (by omega) (by omega)

def natToChars (n : Nat) : List Char := natToCharsAux n []

/-- Inverse of natToChars, used to prove it injective. -/
def decodeDigits (l : List Char) : Nat :=
  l.foldl (fun a c => 10 * a + (c.toNat - 48)) 0

/-- Round half to even, the tie-breaking rule of Python round(). -/
def roundHalfEven (x : ℚ) : ℤ :=
  let f := ⌊x⌋
  let r := x - f
  if r < 1/2 then f
  else if 1/2 < r then f + 1
  else if f % 2 = 0 then f else f + 1

/-- Model of Python round(x, 2). -/
def pyRound2 (x : ℚ) : ℚ := (roundHalfEven (100 * x) : ℚ) / 100

/-- Two-decimal fixed rendering of a rational, the model of f-string :.2f. -/
def format2f (x : ℚ) : List Char :=
  let n := roundHalfEven (100 * x)
  let sign : List Char := if n < 0 then [Char.ofNat 45] else []
  let m := n.natAbs
  let frac := m % 100
  let fracChars := digitChar (frac / 10) :: [digitChar (frac % 10)]
  sign ++ natToChars (m / 100) ++ (Char.ofNat 46 :: fracChars)

/-! ## Data model of the layout-analysis input

Mirrors the duck-typed objects consumed in src/document_ai: a missing
attribute (hasattr false) is an Option field holding none. -/

structure Vertex where
  x : ℚ
  y : ℚ
deriving DecidableEq, Repr

structure TextSegment where
  start_index : Nat
  end_index : Nat
deriving DecidableEq, Repr

/-- A layout element: text anchor (list of segments, none when the attribute
chain layout / text_anchor / text_segments is broken) and the polygon of
normalized vertices (none when bounding_poly is absent). -/
structure Layout where
  textAnchor : Option (List TextSegment)
  boundingPoly : Option (List Vertex)
deriving DecidableEq, Repr

structure Paragraph where
  boundingPoly : Option (List Vertex)
  layout : Option Layout
deriving DecidableEq, Repr

structure Symbol where
  symbolType : Option String
  state : Option String
  boundingPoly : Option (List Vertex)
deriving DecidableEq, Repr

structure Dimension where
  width : ℚ
  height : ℚ
  unit : String
deriving DecidableEq, Repr

/-- The value layout of a form field: its text anchor plus value_type. -/
structure ValueLayout where
  textAnchor : Option (List TextSegment)
  valueType : Option String
deriving DecidableEq, Repr

structure FormFieldIn where
  fieldName : Option Layout
  fieldValue : Option ValueLayout
deriving DecidableEq, Repr

structure Page where
  pageNumber : Option Nat
  dimension : Option Dimension
  rotation : Option Int
  paragraphs : Option (List Paragraph)
  detectedSymbols : Option (List Symbol)
  formFields : Option (List FormFieldIn)
deriving DecidableEq, Repr

structure Document where
  text : Option (List Char)
  pages : Option (List Page)
deriving DecidableEq, Repr

/-! ## validate_document_structure (src/document_ai/document_ai_utils.py) -/

/-- The rotated-page test of the validator: hasattr rotation and rotation not 0. -/
def pageRotated (p : Page) : Bool :=
  match p.rotation with
  | some r => r != 0
  | none => false

/-- The missing-text test: no text attribute or empty text. -/
def docNoText (d : Document) : Bool :=
  match d.text with
  | none => true
  | some t => t.isEmpty

/-- Shallow embedding of validate_document_structure: returns
(is_valid, message, confidence). -/
def validate_document_structure : Option Document → Bool × String × ℚ
  | none => (false, "Document is None", 0)
  | some d =>
    match d.pages with
    | none => (false, "Document has no pages", 0)
    | some [] => (false, "Document has no pages", 0)
    | some ps =>
      let c0 : ℚ := if docNoText d then 1 * (7/10) else 1
      let c := ps.foldl
        (fun c p =>
          (c * (if p.dimension.isNone then 9/10 else 1)) *
            (if pageRotated p then 8/10 else 1)) c0
      if c < 3/5 then
        (false, "Document structure is too poor for reliable processing", c)
      else
        (true, "Document structure is valid", c)

/-- The combined multiplicative penalty one page contributes. -/
def pagePenalty (p : Page) : ℚ :=
  (if p.dimension.isNone then 9/10 else 1) * (if pageRotated p then 8/10 else 1)

/-- Concrete documents used by witnesses: one page, rotated, with dimension info. -/
def rotatedPage : Page :=
  { pageNumber := some 1, dimension := some ⟨612, 792, "pt"⟩, rotation := some 90,
    paragraphs := none, detectedSymbols := none, formFields := none }

def rotatedNoTextDoc : Document := { text := some [], pages := some [rotatedPage] }

/-! ## Text extraction from layouts

DocumentModel._get_text_from_layout (src/document_ai/document_ai_models.py) and
DocumentAIClient._get_text_from_layout (src/document_ai_client.py).  Offsets are
natural numbers (the layout-analysis service emits nonnegative indices); the
client version additionally checks 0 <= index, vacuous here. -/

/-- The in-range slices of the text named by the segments, concatenated in
segment order by the extraction loop; acc is the accumulated result string. -/
def segmentsFold (segs : List TextSegment) (text acc : List Char) : List Char :=
  segs.foldl
    (fun acc s =>
      if s.start_index < text.length ∧ s.end_index ≤ text.length then
        acc ++ pySlice text s.start_index s.end_index
      else acc) acc

/-- Shallow embedding of DocumentModel._get_text_from_layout, including the
hard-coded special case for the segment pair (0,5),(10,15). -/
def get_text_from_layout (layout : Option Layout) (text : List Char) : List Char :=
  match layout with
  | none => []
  | some l =>
    match l.textAnchor with
    | none => []
    | some segs =>
      if segs = [⟨0, 5⟩, ⟨10, 15⟩] ∧ "Hello".toList <+: text
          ∧ "world".toList <:+: text then
        "Hello world".toList
      else
        pyStrip (segmentsFold segs text [])

/-- Shallow embedding of DocumentAIClient._get_text_from_layout restricted to a
layout carrying a text anchor (the nested duck-typing probes of the source all
resolve to this anchor or to the empty string). -/
def client_get_text_from_layout (anchor : Option (List TextSegment))
    (text : List Char) : List Char :=
  match anchor with
  | none => []
  | some segs => pyStrip (segmentsFold segs text [])

/-- The behavior C7 claims: the plain concatenation, in segment order, of the
slices of exactly the in-range segments. -/
def segments_concat (segs : List TextSegment) (text : List Char) : List Char :=
  ((segs.filter (fun s =>
      decide (s.start_index < text.length) && decide (s.end_index ≤ text.length))).map
    (fun s => pySlice text s.start_index s.end_index)).flatten

/-! ## Label matching (DocumentModel._find_checkbox_label)

Distances are carried as squares (see the file comment): the source's
d <= 0.05 / 0.1 / 0.15 / 0.2 / < 0.3 become d^2 <= 1/400, 1/100, 9/400, 1/25,
< 9/100, and the weights 0.8 and 0.9 on distances become 16/25 and 81/100 on
squared distances. -/

/-- Polygon centroid: mean of the vertices, (0,0) when there are none. -/
def polyCentroid (poly : Option (List Vertex)) : ℚ × ℚ :=
  match poly with
  | none => (0, 0)
  | some [] => (0, 0)
  | some vs => ((vs.map Vertex.x).sum / vs.length, (vs.map Vertex.y).sum / vs.length)

/-- Per-paragraph candidate data: squared raw distance to the symbol centroid,
squared reading-order-weighted distance, and the paragraph text; none when the
paragraph has no bounding polygon (the loop skips it). -/
def paraCandidate (cx cy : ℚ) (text : List Char) (para : Paragraph) :
    Option (ℚ × ℚ × List Char) :=
  match para.boundingPoly with
  | none => none
  | some vs =>
    let c := polyCentroid (some vs)
    let d2 := (c.1 - cx)^2 + (c.2 - cy)^2
    let w2 := (d2 * (if cx < c.1 then 16/25 else 1)) *
      (if cy < c.2 ∧ d2 < 1/400 then 81/100 else 1)
    some (d2, w2, get_text_from_layout para.layout text)

/-- The confidence tier the source derives from the winning distance
(applied here to its square). -/
def tierConf (x : ℚ) : ℚ :=
  if x ≤ 1/400 then 1
  else if x ≤ 1/100 then 9/10
  else if x ≤ 9/400 then 8/10
  else if x ≤ 1/25 then 7/10
  else 3/5

/-- The synthesized placeholder label. -/
def placeholderLabel (page : Page) (cx cy : ℚ) : List Char :=
  "Checkbox at Page ".toList ++ natToChars (page.pageNumber.getD 0) ++
    ", position (".toList ++ format2f cx ++ ", ".toList ++ format2f cy ++ ")".toList

/-- The fallback-or-placeholder resolution taken when the winning weighted
distance exceeds 0.2: a non-empty fallback text within raw distance 0.3 is
returned with confidence 0.5, else the placeholder with confidence 0.2. -/
def fallbackOrPlaceholder (page : Page) (fb : Option (ℚ × List Char))
    (cx cy : ℚ) : List Char × ℚ :=
  match fb with
  | some f => if f.2 ≠ [] ∧ f.1 ≤ 9/100 then (f.2, 1/2)
      else (placeholderLabel page cx cy, 1/5)
  | none => (placeholderLabel page cx cy, 1/5)

/-- Whether x beats the stored minimum (vacuously true for the initial state,
whose distance the source sets to infinity). -/
def beats (x : ℚ) : Option (ℚ × List Char) → Bool
  | none => true
  | some b => decide (x < b.1)

/-- One step of the source's paragraph loop: st carries the running
(closest-by-weighted-distance, fallback-by-raw-distance) minima as
(squared distance, text) pairs. -/
def labelStep (st : Option (ℚ × List Char) × Option (ℚ × List Char))
    (cand : Option (ℚ × ℚ × List Char)) :
    Option (ℚ × List Char) × Option (ℚ × List Char) :=
  match cand with
  | none => st
  | some c =>
    let fb := if c.1 < 9/100 ∧ beats c.1 st.2 then some (c.1, c.2.2) else st.2
    let cl := if beats c.2.1 st.1 then some (c.2.1, c.2.2) else st.1
    (cl, fb)

/-- Shallow embedding of DocumentModel._find_checkbox_label. -/
def find_checkbox_label (page : Page) (symbol : Symbol) (text : List Char) :
    List Char × ℚ :=
  let c0 := polyCentroid symbol.boundingPoly
  let st := (page.paragraphs.getD []).foldl
    (fun st para => labelStep st (paraCandidate c0.1 c0.2 text para)) (none, none)
  match st.1 with
  | some c =>
    if c.1 ≤ 1/25 then (c.2, tierConf c.1)
    else fallbackOrPlaceholder page st.2 c0.1 c0.2
  | none => fallbackOrPlaceholder page st.2 c0.1 c0.2

/-- Running-minimum update by weighted squared distance (strict improvement,
so the first minimum wins). -/
def updW (acc : Option (ℚ × ℚ × List Char)) (c : ℚ × ℚ × List Char) :
    Option (ℚ × ℚ × List Char) :=
  match acc with
  | none => some c
  | some b => if c.2.1 < b.2.1 then some c else some b

/-- Running-minimum update by raw squared distance. -/
def updR (acc : Option (ℚ × ℚ × List Char)) (c : ℚ × ℚ × List Char) :
    Option (ℚ × ℚ × List Char) :=
  match acc with
  | none => some c
  | some b => if c.1 < b.1 then some c else some b

/-- First strict minimum by weighted squared distance. -/
def minByW (l : List (ℚ × ℚ × List Char)) : Option (ℚ × ℚ × List Char) :=
  l.foldl updW none

/-- First strict minimum by raw squared distance. -/
def minByR (l : List (ℚ × ℚ × List Char)) : Option (ℚ × ℚ × List Char) :=
  l.foldl updR none

/-- The behavior C2 claims, written from the spec text: the winner is selected
by weighted distance, but the acceptance threshold (raw distance at most 0.2)
and the confidence tiers are computed from the winner's raw distance, and the
fallback is any paragraph of raw distance at most 0.3. -/
def find_checkbox_label_claimed (page : Page) (symbol : Symbol)
    (text : List Char) : List Char × ℚ :=
  let c0 := polyCentroid symbol.boundingPoly
  let cands := (page.paragraphs.getD []).filterMap (paraCandidate c0.1 c0.2 text)
  match minByW cands with
  | none => (placeholderLabel page c0.1 c0.2, 1/5)
  | some w =>
    if w.1 ≤ 1/25 then (w.2.2, tierConf w.1)
    else
      match minByR (cands.filter (fun c => c.1 ≤ 9/100)) with
      | some f => (f.2.2, 1/2)
      | none => (placeholderLabel page c0.1 c0.2, 1/5)

/-- The amended C2 behavior, matching the source: threshold and tiers use the
winner's weighted distance, the fallback pool is raw distance strictly below
0.3, and a fallback with empty text is passed over for the placeholder. -/
def find_checkbox_label_amended (page : Page) (symbol : Symbol)
    (text : List Char) : List Char × ℚ :=
  let c0 := polyCentroid symbol.boundingPoly
  let cands := (page.paragraphs.getD []).filterMap (paraCandidate c0.1 c0.2 text)
  match minByW cands with
  | none => (placeholderLabel page c0.1 c0.2, 1/5)
  | some w =>
    if w.2.1 ≤ 1/25 then (w.2.2, tierConf w.2.1)
    else
      match minByR (cands.filter (fun c => c.1 < 9/100)) with
      | some f => if f.2.2 ≠ [] then (f.2.2, 1/2)
          else (placeholderLabel page c0.1 c0.2, 1/5)
      | none => (placeholderLabel page c0.1 c0.2, 1/5)
/-! ## Checkbox extraction from detected symbols
(DocumentModel._extract_checkboxes, src/document_ai/document_ai_models.py) -/

/-- The symbol types accepted directly as checkboxes. -/
def checkbox_types : List String := ["checkbox", "square", "box", "tick_box"]

structure CheckboxData where
  symbol_type : String
  is_checked : Bool
  label : List Char
  normalized_bounding_box : Option (List Vertex)
  confidence_score : ℚ
deriving DecidableEq, Repr

/-- The classification step of _extract_checkboxes: whether the symbol is
likely a checkbox, the base confidence, and the (possibly relabelled) type. -/
def classifySymbol (symbol : Symbol) (st : String) : Bool × ℚ × String :=
  if st ∈ checkbox_types then (true, 1, st)
  else if st = "unknown" then
    match symbol.boundingPoly with
    | some vs =>
      if vs.length = 4 then
        let minX := ((vs.map Vertex.x).min?).getD 0
        let maxX := ((vs.map Vertex.x).max?).getD 0
        let minY := ((vs.map Vertex.y).min?).getD 0
        let maxY := ((vs.map Vertex.y).max?).getD 0
        let w := maxX - minX
        let h := maxY - minY
        if 0 < w ∧ 0 < h ∧ 7/10 ≤ w / h ∧ w / h ≤ 13/10 then
          (true, 7/10, "inferred_checkbox")
        else (false, 1, st)
      else (false, 1, st)
    | none => (false, 1, st)
  else (false, 1, st)

/-- Processing of one detected symbol by _extract_checkboxes: none when the
symbol is skipped (no symbol_type attribute, or not checkbox-like). -/
def process_symbol (page : Page) (text : List Char) (symbol : Symbol) :
    Option CheckboxData :=
  match symbol.symbolType with
  | none => none
  | some st =>
    let cls := classifySymbol symbol st
    if cls.1 = false then none
    else
      let conf1 := cls.2.1
      let conf2 :=
        match symbol.boundingPoly with
        | some vs =>
          if vs.length = 4 ∧ 2 < (vs.map Vertex.x).dedup.length
              ∧ 2 < (vs.map Vertex.y).dedup.length then
            conf1 * (9/10)
          else conf1
        | none => conf1
      let conf3 :=
        if symbol.state = some ("checked") ∨ symbol.state = some ("unchecked") then conf2
        else conf2 * (8/10)
      let lab := find_checkbox_label page symbol text
      some { symbol_type := cls.2.2,
             is_checked := symbol.state = some ("checked"),
             label := lab.1,
             normalized_bounding_box := symbol.boundingPoly,
             confidence_score := pyRound2 (conf3 * lab.2) }

/-- Shallow embedding of DocumentModel._extract_checkboxes on a page whose
symbols all process without raising. -/
def extract_checkboxes (page : Page) (text : List Char) : List CheckboxData :=
  match page.detectedSymbols with
  | none => []
  | some syms => syms.filterMap (process_symbol page text)

/-- The per-symbol candidate C3 claims, written from the spec text: a symbol
qualifies either by an accepted type (base confidence 1.0, type preserved) or,
when typed unknown, by a 4-vertex polygon with positive extents and aspect
ratio within [0.7, 1.3] (relabelled inferred_checkbox, base 0.7); the emitted
confidence is the base times 0.9 for a rotated polygon, times 0.8 when the
state reports neither checked nor unchecked, times the label confidence,
rounded to two decimals. -/
def claimed_symbol_candidate (page : Page) (text : List Char) (symbol : Symbol) :
    Option CheckboxData :=
  match symbol.symbolType with
  | none => none
  | some st =>
    let qual : Option (ℚ × String) :=
      if st ∈ checkbox_types then some (1, st)
      else if st = "unknown" then
        match symbol.boundingPoly with
        | some vs =>
          let minX := ((vs.map Vertex.x).min?).getD 0
          let maxX := ((vs.map Vertex.x).max?).getD 0
          let minY := ((vs.map Vertex.y).min?).getD 0
          let maxY := ((vs.map Vertex.y).max?).getD 0
          let w := maxX - minX
          let h := maxY - minY
          if vs.length = 4 ∧ 0 < w ∧ 0 < h ∧ 7/10 ≤ w / h ∧ w / h ≤ 13/10 then
            some (7/10, "inferred_checkbox")
          else none
        | none => none
      else none
    match qual with
    | none => none
    | some q =>
      let rotFactor : ℚ :=
        match symbol.boundingPoly with
        | some vs =>
          if vs.length = 4 ∧ 2 < (vs.map Vertex.x).dedup.length
              ∧ 2 < (vs.map Vertex.y).dedup.length then 9/10 else 1
        | none => 1
      let stateFactor : ℚ :=
        if symbol.state = some ("checked") ∨ symbol.state = some ("unchecked") then 1
        else 8/10
      let lab := find_checkbox_label page symbol text
      some { symbol_type := q.2,
             is_checked := symbol.state = some ("checked"),
             label := lab.1,
             normalized_bounding_box := symbol.boundingPoly,
             confidence_score := pyRound2 (q.1 * rotFactor * stateFactor * lab.2) }

/-! ## Exception containment (C6)

A detected symbol whose processing raises is modelled as an .error element of
the symbol list.  In DocumentModel._extract_checkboxes the try block wraps the
whole loop and the handler returns [], so the first raising symbol discards
every candidate of the page; in DocumentAIClient._extract_checkboxes each
symbol has its own try/except-continue, so only the raising symbol is lost. -/

/-- The models-version loop under the whole-loop try: acc is the list built so
far; an exception reaches the function-level handler, which returns []. -/
def extract_checkboxes_exc (page : Page) (text : List Char) :
    List (Except Unit Symbol) → List CheckboxData → List CheckboxData
  | [], acc => acc
  | .error _ :: _, _ => []
  | .ok s :: rest, acc =>
    extract_checkboxes_exc page text rest (acc ++ (process_symbol page text s).toList)
/-! ## Client-side checkbox extraction
(DocumentAIClient._extract_checkboxes, src/document_ai_client.py) -/

/-- A client-side polygon: pixel vertices and normalized vertices. -/
structure ClientPoly where
  vertices : List Vertex
  normalizedVertices : List Vertex
deriving DecidableEq, Repr

structure ClientLayout where
  textAnchor : Option (List TextSegment)
  boundingPoly : Option ClientPoly
deriving DecidableEq, Repr

/-- A client-side detected symbol; confidence defaults to 0 when absent. -/
structure ClientSymbol where
  symbolType : Option String
  state : Option String
  layout : Option ClientLayout
  confidence : Option ℚ
deriving DecidableEq, Repr

structure ClientCheckboxData where
  is_checked : Bool
  confidence : ℚ
  label : Option (List Char)
  bounding_box : List Vertex
  normalized_bounding_box : List Vertex
deriving DecidableEq, Repr

/-- Python str() applied to an optional string attribute. -/
def pyStr : Option String → String
  | none => "None"
  | some s => s

/-- _extract_bounding_box: empty for an absent polygon or empty vertex list. -/
def client_extract_bounding_box (poly : Option ClientPoly) : List Vertex :=
  match poly with
  | none => []
  | some p => if p.vertices = [] then [] else p.vertices

/-- _extract_normalized_bounding_box. -/
def client_extract_normalized_bounding_box (poly : Option ClientPoly) : List Vertex :=
  match poly with
  | none => []
  | some p => if p.normalizedVertices = [] then [] else p.normalizedVertices

/-- Processing of one symbol by the client extractor: a candidate only when
str(symbol_type) ends with CHECKBOX.  When a text anchor is present the label
is extracted through the client text-from-layout helper called with a plain
dict, whose attribute probes all fail, so the label is always the empty
string; otherwise the label stays None. -/
def client_process_symbol (_text : List Char) (s : ClientSymbol) :
    Option ClientCheckboxData :=
  if ("CHECKBOX".toList <:+ (pyStr s.symbolType).toList) then
    let anchor := match s.layout with
      | none => none
      | some l => l.textAnchor
    let lab : Option (List Char) := match anchor with
      | none => none
      | some _ => some []
    let poly := match s.layout with
      | none => none
      | some l => l.boundingPoly
    some { is_checked := ("CHECKED".toList <:+ (pyStr s.state).toList),
           confidence := (s.confidence).getD 0,
           label := lab,
           bounding_box := client_extract_bounding_box poly,
           normalized_bounding_box := client_extract_normalized_bounding_box poly }
  else none

/-- The client-version loop: each symbol is processed under its own
try/except-continue, so a raising symbol is skipped and the loop goes on. -/
def client_extract_checkboxes (text : List Char) :
    List (Except Unit ClientSymbol) → List ClientCheckboxData → List ClientCheckboxData
  | [], acc => acc
  | .error _ :: rest, acc => client_extract_checkboxes text rest acc
  | .ok s :: rest, acc =>
    client_extract_checkboxes text rest (acc ++ (client_process_symbol text s).toList)
/-! ## Client-side form-field extraction and the checkbox rule cascade
(DocumentAIClient._extract_form_fields, src/document_ai_client.py) -/

/-- The known W-9 checkbox field names of rule 2. -/
def w9_checkbox_fields : List (List Char) :=
  (["individual/sole proprietor", "c corporation", "s corporation", "partnership",
    "trust/estate", "limited liability company", "other", "llc"]).map String.toList

/-- The case-insensitive checked value texts of rules 1 and 3. -/
def checked_value_texts : List (List Char) :=
  (["true", "yes", "checked", "✓", "✔", "x"]).map String.toList

/-- The checkbox keywords of rule 3. -/
def checkbox_terms : List (List Char) :=
  (["check", "checkbox", "tick", "mark", "select", "choice", "option"]).map String.toList

/-- The checkbox glyphs of rule 4. -/
def checkbox_chars : List (List Char) :=
  (["✓", "✔", "☑", "☒", "■", "□", "▢", "▣", "x", "X", "[ ]", "[x]", "[X]"]).map String.toList

/-- The checked subset of the rule-4 glyphs. -/
def checked_chars : List (List Char) :=
  (["✓", "✔", "☑", "▣", "x", "X", "[x]", "[X]"]).map String.toList

/-- The entity-type label patterns of rule 5. -/
def w9_patterns : List (List Char) :=
  (["corporation", "individual", "partnership", "trust", "estate", "llc"]).map String.toList

/-- Rules 1-4 of the checkbox classification cascade of the client form-field
extractor: each rule, when its trigger holds, overwrites (is_checkbox,
is_checked); nameLower is the lowered, stripped field name. -/
def cascade4 (value_type nameLower value : List Char) : Bool × Bool :=
  let s1 : Bool × Bool :=
    if value_type ≠ [] ∧ ("CHECKBOX".toList <:+: pyUpper value_type
        ∨ "SELECTED".toList <:+: pyUpper value_type) then
      (true, decide (pyLower value ∈ checked_value_texts))
    else (false, false)
  let s2 :=
    if w9_checkbox_fields.any (fun t => decide (t <:+: nameLower)) then
      (true, decide (pyStrip value ≠ []))
    else s1
  let s3 :=
    if checkbox_terms.any (fun t => decide (t <:+: nameLower)) then
      (true, decide (pyLower value ∈ checked_value_texts))
    else s2
  if checkbox_chars.any (fun t => decide (t <:+: value)) then
    (true, checked_chars.any (fun t => decide (t <:+: value)))
  else s3

/-- The five-rule checkbox classification cascade as written in the source:
rules 1-4 above, then rule 5 guarded by not-yet-classified (an empty stripped
value with a truthy name matching the entity-type vocabulary).
Returns (is_checkbox, is_checked). -/
def client_classify_field (value_type name value : List Char) : Bool × Bool :=
  let nameLower := pyStrip (pyLower name)
  let s4 := cascade4 value_type nameLower value
  if s4.1 = false ∧ pyStrip value = [] ∧ nameLower ≠ []
      ∧ w9_patterns.any (fun t => decide (t <:+: nameLower)) then
    (true, false)
  else s4

/-- The cascade as C4 states it: each of the five rules, in order, sets
is_checkbox and recomputes is_checked whenever its trigger holds, later rules
overriding earlier ones; rule 5 triggers on an empty (stripped) value text
with an entity-type field name. -/
def claimed_classify_field (value_type name value : List Char) : Bool × Bool :=
  let nameLower := pyStrip (pyLower name)
  let s4 := cascade4 value_type nameLower value
  if pyStrip value = [] ∧ w9_patterns.any (fun t => decide (t <:+: nameLower)) then
    (true, false)
  else s4

/-- A typed field value: boolean for checkboxes, raw text otherwise. -/
inductive FieldValue where
  | text (s : List Char)
  | bool (b : Bool)
deriving DecidableEq, Repr

structure ClientFormFieldOut where
  name : List Char
  value : FieldValue
  ftype : String
  value_type : List Char
  is_checkbox : Bool
  is_checked : Option Bool
  bbox : Option (ℚ × ℚ × ℚ × ℚ)
  page_number : Nat
deriving DecidableEq, Repr

/-- A client-side raw form field. -/
structure ClientFormFieldIn where
  fieldName : Option Layout
  fieldValue : Option ValueLayout
deriving DecidableEq, Repr

/-- Processing of one raw form field by the client extractor.  The bounding-box
step reads field.field_name unguarded and indexes vertices[0] and vertices[2];
a missing field_name or a 1- or 2-vertex polygon raises there, and the
per-field except-continue drops only that field (returning none here). -/
def client_process_form_field (pageNum : Nat) (f : ClientFormFieldIn)
    (text : List Char) : Option ClientFormFieldOut :=
  let name := match f.fieldName with
    | some l => client_get_text_from_layout l.textAnchor text
    | none => []
  let value := match f.fieldValue with
    | some v => client_get_text_from_layout v.textAnchor text
    | none => []
  let vt : List Char := match f.fieldValue with
    | some v => match v.valueType with
      | some s => s.toList
      | none => []
    | none => []
  let cls := client_classify_field vt name value
  match f.fieldName with
  | none => none
  | some l =>
    let bbox : Option (Option (ℚ × ℚ × ℚ × ℚ)) :=
      match l.boundingPoly with
      | none => some none
      | some [] => some none
      | some (v0 :: tl) =>
        match (v0 :: tl).drop 2 with
        | v2 :: _ => some (some (v0.x, v0.y, v2.x, v2.y))
        | [] => none
    match bbox with
    | none => none
    | some bb =>
      some { name := name,
             value := if cls.1 then FieldValue.bool cls.2 else FieldValue.text value,
             ftype := if cls.1 then ("checkbox") else ("text"),
             value_type := vt,
             is_checkbox := cls.1,
             is_checked := if cls.1 then some cls.2 else none,
             bbox := bb,
             page_number := pageNum }

/-- The field C4 claims: identical processing but with the claimed cascade. -/
def claimed_process_form_field (pageNum : Nat) (f : ClientFormFieldIn)
    (text : List Char) : Option ClientFormFieldOut :=
  let name := match f.fieldName with
    | some l => client_get_text_from_layout l.textAnchor text
    | none => []
  let value := match f.fieldValue with
    | some v => client_get_text_from_layout v.textAnchor text
    | none => []
  let vt : List Char := match f.fieldValue with
    | some v => match v.valueType with
      | some s => s.toList
      | none => []
    | none => []
  let cls := claimed_classify_field vt name value
  match f.fieldName with
  | none => none
  | some l =>
    let bbox : Option (Option (ℚ × ℚ × ℚ × ℚ)) :=
      match l.boundingPoly with
      | none => some none
      | some [] => some none
      | some (v0 :: tl) =>
        match (v0 :: tl).drop 2 with
        | v2 :: _ => some (some (v0.x, v0.y, v2.x, v2.y))
        | [] => none
    match bbox with
    | none => none
    | some bb =>
      some { name := name,
             value := if cls.1 then FieldValue.bool cls.2 else FieldValue.text value,
             ftype := if cls.1 then ("checkbox") else ("text"),
             value_type := vt,
             is_checkbox := cls.1,
             is_checked := if cls.1 then some cls.2 else none,
             bbox := bb,
             page_number := pageNum }
/-! ## Models-side form-field extraction
(DocumentModel._extract_form_fields, src/document_ai/document_ai_models.py) -/

/-- The checked value texts of boolean fields in the models extractor. -/
def bool_true_texts : List (List Char) :=
  (["yes", "true", "1", "selected", "checked"]).map String.toList

structure ModelFormFieldOut where
  name : List Char
  value : FieldValue
  ftype : String
  is_checkbox : Bool
  bbox : Option (List Vertex)
deriving DecidableEq, Repr

/-- Processing of one form field by the models extractor.  The bounding-box
step reads field.field_name unguarded; a missing field_name raises there and,
because this extractor's only try/except wraps the whole loop and returns [],
the exception is signalled to the caller as .error. -/
def model_process_form_field (f : FormFieldIn) (text : List Char) :
    Except Unit ModelFormFieldOut :=
  let name := match f.fieldName with
    | some l => get_text_from_layout (some l) text
    | none => []
  let valueText := match f.fieldValue with
    | some v =>
      get_text_from_layout (some { textAnchor := v.textAnchor, boundingPoly := none }) text
    | none => []
  let ftype : List Char := match f.fieldValue with
    | some v => match v.valueType with
      | some s => s.toList
      | none => []
    | none => []
  let isCheckbox := ftype = "boolean".toList
  let value : FieldValue :=
    if isCheckbox then FieldValue.bool (decide (pyLower valueText ∈ bool_true_texts))
    else FieldValue.text valueText
  match f.fieldName with
  | none => Except.error ()
  | some l =>
    Except.ok { name := name,
                value := value,
                ftype := if isCheckbox then ("checkbox") else ("text"),
                is_checkbox := isCheckbox,
                bbox := l.boundingPoly }

/-- Shallow embedding of DocumentModel._extract_form_fields: a page without
form_fields yields [], and an exception anywhere in the loop yields []. -/
def model_extract_form_fields (page : Page) (text : List Char) :
    List ModelFormFieldOut :=
  match page.formFields with
  | none => []
  | some fs =>
    let rec go : List FormFieldIn → List ModelFormFieldOut → Option (List ModelFormFieldOut)
      | [], acc => some acc
      | f :: rest, acc =>
        match model_process_form_field f text with
        | .error _ => none
        | .ok r => go rest (acc ++ [r])
    (go fs []).getD []

/-! ## Document-level merge
(DocumentModel._extract_document_data, src/document_ai/document_ai_models.py) -/

/-- One merged field record of the output document. -/
structure FieldData where
  id : List Char
  ftype : String
  name : List Char
  value : FieldValue
  bbox : Option (List Vertex)
  page : Nat
deriving DecidableEq, Repr

structure PageData where
  page_number : Nat
  dimensions : ℚ × ℚ × String
  fields : List FieldData
deriving DecidableEq, Repr

/-- A merged entry before its id is assigned: whether it came from the
form-field loop (id prefixed field_) or the symbol loop (checkbox_), and its
payload. -/
structure PreEntry where
  fromForm : Bool
  ftype : String
  name : List Char
  value : FieldValue
  bbox : Option (List Vertex)
  page : Nat
deriving DecidableEq, Repr

/-- The id string given to the n-th field added to the document. -/
def entryId (fromForm : Bool) (n : Nat) : List Char :=
  (if fromForm then ("field_").toList else ("checkbox_").toList) ++ natToChars n

def mkEntry (e : PreEntry) (n : Nat) : FieldData :=
  { id := entryId e.fromForm n,
    ftype := e.ftype, name := e.name, value := e.value,
    bbox := e.bbox, page := e.page }

/-- Appending a page's entries to the running document-level field list; each
entry receives the id determined by the number of fields already added. -/
def appendEntries (acc : List FieldData) (items : List PreEntry) : List FieldData :=
  items.foldl (fun acc it => acc ++ [mkEntry it acc.length]) acc

/-- The merge-ready entries of one page: form fields first, then the detected
checkboxes that carry a non-empty label. -/
def pagePreEntries (page : Page) (text : List Char) (idx : Nat) : List PreEntry :=
  let pageNum := page.pageNumber.getD (idx + 1)
  ((model_extract_form_fields page text).map (fun f =>
    { fromForm := true, ftype := f.ftype, name := f.name, value := f.value,
      bbox := f.bbox, page := pageNum })) ++
  (((extract_checkboxes page text).filter (fun cb => !cb.label.isEmpty)).map (fun cb =>
    { fromForm := false, ftype := "checkbox", name := cb.label,
      value := FieldValue.bool cb.is_checked,
      bbox := cb.normalized_bounding_box, page := pageNum }))

structure DocData where
  text : List Char
  pages : List PageData
  fields : List FieldData
deriving DecidableEq, Repr

/-- The page dimensions recorded in the output. -/
def pageDimensions (page : Page) : ℚ × ℚ × String :=
  match page.dimension with
  | some d => (d.width, d.height, d.unit)
  | none => (0, 0, "")

/-- Shallow embedding of DocumentModel._extract_document_data: walks the pages
accumulating the document-level field list (whose length determines each new
id) and the per-page structures. -/
def extract_document_data (d : Document) : DocData :=
  let text := (d.text).getD []
  match d.pages with
  | none => { text := text, pages := [], fields := [] }
  | some pages =>
    let step := fun (st : List PageData × List FieldData) (ip : Nat × Page) =>
      let items := pagePreEntries ip.2 text ip.1
      let fields' := appendEntries st.2 items
      let pd : PageData :=
        { page_number := (ip.2).pageNumber.getD (ip.1 + 1),
          dimensions := pageDimensions ip.2,
          fields := fields'.drop st.2.length }
      (st.1 ++ [pd], fields')
    let res := (pages.enum).foldl step ([], [])
    { text := text, pages := res.1, fields := res.2 }

/-! ## process_file (DocumentModel.process_file)

File reading and the Document AI call are the external collaborator; the
embedding starts from their result, the optional document.  mime_type is
constant in the source and omitted. -/

structure ProcessResult where
  validation : Bool × String × ℚ
  text : List Char
  pages : List PageData
  fields : List FieldData
  checkboxes : Option (List CheckboxData)
deriving DecidableEq, Repr

/-- Shallow embedding of process_file after the document has been obtained:
validation runs first; an invalid document short-circuits to a degraded result
whose pages, fields and checkboxes are hardwired to empty lists. -/
def process_file (document : Option Document) : ProcessResult :=
  let v := validate_document_structure document
  if v.1 = false then
    { validation := v,
      text := match document with
        | some d => (d.text).getD []
        | none => [],
      pages := [], fields := [], checkboxes := some [] }
  else
    match document with
    | none => { validation := v, text := [], pages := [], fields := [],
                checkboxes := none }
    | some d =>
      let dd := extract_document_data d
      { validation := v, text := dd.text, pages := dd.pages, fields := dd.fields,
        checkboxes := none }

/-! ## Bounding-box normalization for visualization
(visualize_extracted_fields, src/visualization.py, lines 655-714) -/

/-- A Python bbox dict: each key present or absent. -/
structure PyBBox where
  left : Option ℚ
  top : Option ℚ
  right : Option ℚ
  bottom : Option ℚ
  width : Option ℚ
  height : Option ℚ
deriving DecidableEq, Repr

/-- The default zero-size bbox substituted for a missing or empty bbox. -/
def default_zero_bbox : PyBBox :=
  { left := some 0, top := some 0, right := none, bottom := none,
    width := some 0, height := some 0 }

/-- Truthiness of a bbox dict: empty (no keys) is falsy. -/
def bboxFalsy (b : PyBBox) : Bool :=
  b.left.isNone && b.top.isNone && b.right.isNone && b.bottom.isNone &&
    b.width.isNone && b.height.isNone

/-- Shallow embedding of the bbox-normalization block: LTRB input is detected
first, then LTWH; any coordinate above 1 triggers division by the page
extents; both representations are always emitted; an unrecognized key set
yields none (the source logs a warning and leaves the field unchanged). -/
def normalize_bbox (b : PyBBox) (pw ph : ℚ) : Option PyBBox :=
  match b.left, b.top, b.right, b.bottom with
  | some l, some t, some r, some bt =>
    if 1 < l ∨ 1 < t ∨ 1 < r ∨ 1 < bt then
      let l' := l / pw
      let t' := t / ph
      let r' := r / pw
      let bt' := bt / ph
      some { left := some l', top := some t', right := some r', bottom := some bt',
             width := some (r' - l'), height := some (bt' - t') }
    else
      some { b with width := some (r - l), height := some (bt - t) }
  | _, _, _, _ =>
    match b.left, b.top, b.width, b.height with
    | some l, some t, some w, some h =>
      if 1 < l ∨ 1 < t ∨ 1 < w ∨ 1 < h then
        let l' := l / pw
        let t' := t / ph
        let w' := w / pw
        let h' := h / ph
        some { left := some l', top := some t', width := some w', height := some h',
               right := some (l' + w'), bottom := some (t' + h') }
      else
        some { b with right := some (l + w), bottom := some (t + h) }
    | _, _, _, _ => none

/-- A field as seen by the visualization loop. -/
structure VizField where
  fid : List Char
  page : Nat
  bbox : Option PyBBox
deriving DecidableEq, Repr

/-- The per-field body of the visualization loop for fields on the current
page: a missing or empty bbox is replaced by the default zero-size bbox; a
bbox of unrecognized format is left as it is; otherwise the bbox is replaced
by its normalization.  The field itself is always kept. -/
def update_field_bbox (f : VizField) (pw ph : ℚ) : VizField :=
  match f.bbox with
  | none => { f with bbox := some default_zero_bbox }
  | some b =>
    if bboxFalsy b then { f with bbox := some default_zero_bbox }
    else
      match normalize_bbox b pw ph with
      | some nb => { f with bbox := some nb }
      | none => f

/-- The visualization pass over the processed fields of one page image. -/
def update_page_fields (fields : List VizField) (pageNum : Nat) (pw ph : ℚ) :
    List VizField :=
  fields.map (fun f => if f.page = pageNum then update_field_bbox f pw ph else f)

/-- The four LTRB values present are at most 1: the absolute-coordinate
detection of a second normalization pass sees nothing to rescale. -/
def bboxInRange (b : PyBBox) : Prop :=
  (∀ x ∈ b.left, x ≤ 1) ∧ (∀ x ∈ b.top, x ≤ 1) ∧ (∀ x ∈ b.right, x ≤ 1) ∧
    (∀ x ∈ b.bottom, x ≤ 1)

/-- The id-numbering invariant: the i-th entry of the document-level field list
carries the id field_i or checkbox_i. -/
def IdsNumbered (l : List FieldData) : Prop :=
  ∀ (i : Nat) (h : i < l.length),
    (l.get ⟨i, h⟩).id = entryId true i ∨ (l.get ⟨i, h⟩).id = entryId false i

/-! ## Concrete inputs used by counterexamples and witnesses -/

/-- A checkbox symbol whose polygon sits at the page centre. -/
def sampleSymbol : Symbol :=
  { symbolType := some ("checkbox"), state := some ("checked"),
    boundingPoly := some [⟨1/2, 1/2⟩, ⟨1/2, 1/2⟩, ⟨1/2, 1/2⟩, ⟨1/2, 1/2⟩] }

/-- A paragraph centred a quarter page to the right of the sample symbol. -/
def samplePara : Paragraph :=
  { boundingPoly := some [⟨3/4, 1/2⟩],
    layout := some { textAnchor := some [⟨0, 5⟩], boundingPoly := none } }

def samplePage : Page :=
  { pageNumber := some 1, dimension := none, rotation := none,
    paragraphs := some [samplePara], detectedSymbols := none, formFields := none }

/-- A form field with an empty name anchor, enough to produce one output field. -/
def sampleFormField : FormFieldIn :=
  { fieldName := some { textAnchor := none, boundingPoly := none },
    fieldValue := none }

/-- A rotated page carrying one raw form field. -/
def degradedPage : Page :=
  { pageNumber := some 1, dimension := some ⟨612, 792, "pt"⟩, rotation := some 90,
    paragraphs := none, detectedSymbols := none, formFields := some [sampleFormField] }

/-- A document whose validation fails structurally (0.7 x 0.8 = 0.56 < 0.6)
although extraction would produce a field. -/
def degradedDoc : Document := { text := some [], pages := some [degradedPage] }

/-- A field whose bbox has an unrecognized key set (only left present). -/
def invalidBBoxField : VizField :=
  { fid := "f1".toList, page := 1,
    bbox := some { left := some (1/2), top := none, right := none, bottom := none,
                   width := none, height := none } }

/-- A field whose LTRB bbox is degenerate (right below left, bottom above top). -/
def degenerateBBoxField : VizField :=
  { fid := "f2".toList, page := 1,
    bbox := some { left := some (1/2), top := some (1/2), right := some (3/10),
                   bottom := some (3/10), width := none, height := none } }

/-! ## Theorems -/

theorem foldl_penalty (ps : List Page) (c0 : ℚ) :
    ps.foldl
      (fun c p =>
        (c * (if p.dimension.isNone then 9/10 else 1)) *
          (if pageRotated p then 8/10 else 1)) c0
      = c0 * (ps.map pagePenalty).prod := by
  induction ps generalizing c0 with
  | nil => simp
  | cons p ps ih =>
    simp only [List.foldl_cons, List.map_cons, List.prod_cons, ih, pagePenalty]
    ring

theorem validate_some_cons (d : Document) (p : Page) (ps : List Page)
    (h : d.pages = some (p :: ps)) :
    validate_document_structure (some d) =
      (if (if docNoText d then (7:ℚ)/10 else 1) * ((p :: ps).map pagePenalty).prod < 3/5 then
        (false, "Document structure is too poor for reliable processing",
          (if docNoText d then (7:ℚ)/10 else 1) * ((p :: ps).map pagePenalty).prod)
      else
        (true, "Document structure is valid",
          (if docNoText d then (7:ℚ)/10 else 1) * ((p :: ps).map pagePenalty).prod)) := by
  simp only [validate_document_structure, h, foldl_penalty]
  have : (if docNoText d then (1:ℚ) * (7/10) else 1) = (if docNoText d then (7:ℚ)/10 else 1) := by
    split <;> norm_num
  rw [this]

/-- C1: validate_document_structure returns (false, "Document is None", 0.0) for an
absent document and (false, "Document has no pages", 0.0) for a document without
pages; otherwise its confidence is 1.0 times 0.7 when the document has no text,
times 0.9 per page lacking dimension info and 0.8 per page with non-zero rotation,
with is_valid false and the poor-structure message exactly when the confidence is
below 0.6; a document with empty text and a single rotated page scores
0.7 * 0.8 = 0.56 and is invalid. -/
theorem C1_validate_document_structure :
    (validate_document_structure none = (false, "Document is None", 0))
    ∧ (∀ d : Document, d.pages = none ∨ d.pages = some [] →
        validate_document_structure (some d) = (false, "Document has no pages", 0))
    ∧ (∀ (d : Document) (p : Page) (ps : List Page), d.pages = some (p :: ps) →
        validate_document_structure (some d) =
          (if (if docNoText d then (7:ℚ)/10 else 1) * ((p :: ps).map pagePenalty).prod < 3/5 then
            (false, "Document structure is too poor for reliable processing",
              (if docNoText d then (7:ℚ)/10 else 1) * ((p :: ps).map pagePenalty).prod)
          else
            (true, "Document structure is valid",
              (if docNoText d then (7:ℚ)/10 else 1) * ((p :: ps).map pagePenalty).prod)))
    ∧ (∀ (d : Document) (p : Page), d.text = some [] → d.pages = some [p] →
        p.dimension.isSome → pageRotated p →
        validate_document_structure (some d) =
          (false, "Document structure is too poor for reliable processing", 14/25)) := by
  refine ⟨rfl, ?_, ?_, ?_⟩
  · intro d h
    rcases h with h | h <;> simp [validate_document_structure, h]
  · intro d p ps h
    exact validate_some_cons d p ps h
  · intro d p htext hpages hdim hrot
    rw [validate_some_cons d p [] hpages]
    have h1 : docNoText d = true := by simp [docNoText, htext]
    have h2 : pagePenalty p = 8/10 := by
      simp [pagePenalty, hrot, Option.isNone_iff_eq_none]
      intro hn
      rw [hn] at hdim
      simp at hdim
    rw [h1]
    simp [h2]
    norm_num

/-- Witness for C1 at concrete inputs. -/
theorem C1_witness :
    validate_document_structure (some rotatedNoTextDoc) =
      (false, "Document structure is too poor for reliable processing", 14/25) :=
  C1_validate_document_structure.2.2.2 rotatedNoTextDoc rotatedPage rfl rfl
    (by decide) (by decide)
theorem natToCharsAux_eq_append (n : Nat) : ∀ acc, natToCharsAux n acc = natToCharsAux n [] ++ acc := by
  induction n using Nat.strong_induction_on with
  | _ n ih =>
    intro acc
    unfold natToCharsAux
    by_cases h : n < 10
    · simp [h]
    · simp only [h, dite_false]
      rw [ih (n / 10) (Nat.div_lt_self (by omega) (by omega)),
        ih (n / 10) (Nat.div_lt_self (by omega) (by omega)) [digitChar (n % 10)]]
      simp

theorem digitChar_toNat (d : Nat) (h : d < 10) : (digitChar d).toNat = 48 + d := by
  interval_cases d <;> rfl

theorem decode_natToChars (n : Nat) : decodeDigits (natToChars n) = n := by
  induction n using Nat.strong_induction_on with
  | _ n ih =>
    unfold natToChars natToCharsAux
    by_cases h : n < 10
    · simp only [h, dite_true]
      simp only [decodeDigits, List.foldl_cons, List.foldl_nil, Nat.mod_eq_of_lt h,
        Nat.mul_zero, Nat.zero_add]
      rw [digitChar_toNat n h]
      omega
    · simp only [h, dite_false]
      rw [natToCharsAux_eq_append]
      have hlt : n / 10 < n := Nat.div_lt_self (by omega) (by omega)
      have hd := ih (n / 10) hlt
      unfold decodeDigits at hd ⊢
      rw [List.foldl_append]
      simp only [List.foldl_cons, List.foldl_nil]
      rw [show natToCharsAux (n / 10) [] = natToChars (n / 10) from rfl] at *
      rw [hd, digitChar_toNat (n % 10) (Nat.mod_lt n (by omega))]
      omega

theorem natToChars_injective : Function.Injective natToChars := by
  intro a b h
  rw [← decode_natToChars a, ← decode_natToChars b, h]
theorem pyStrip_eq_nil_iff (v : List Char) :
    pyStrip v = [] ↔ ∀ c ∈ v, c.isWhitespace = true := by
  unfold pyStrip
  rw [List.reverse_eq_nil_iff, List.dropWhile_eq_nil_iff]
  constructor
  · intro h c hc
    rcases List.mem_append.mp ((List.takeWhile_append_dropWhile (p := pyWs) (l := v)) ▸ hc) with h1 | h1
    · exact List.mem_takeWhile_imp h1
    · exact h c (List.mem_reverse.mpr h1)
  · intro h c hc
    exact h c ((List.dropWhile_sublist _).subset (List.mem_reverse.mp hc))

theorem ws_toLower {c : Char} (h : c.isWhitespace = true) :
    c.toLower.isWhitespace = true := by
  have h' : c = ' ' ∨ c = '\t' ∨ c = '\r' ∨ c = '\n' := by
    revert h
    simp [Char.isWhitespace]
    tauto
  rcases h' with rfl | rfl | rfl | rfl <;> decide


theorem pattern_any_ne_nil {n : List Char}
    (h : w9_patterns.any (fun t => decide (t <:+: n)) = true) : n ≠ [] := by
  intro hn
  subst hn
  simp [w9_patterns] at h

theorem all_ws_lower_ne {v t : List Char}
    (hws : ∀ c ∈ v, c.isWhitespace = true)
    (hc : ¬ ∀ c ∈ t, c.isWhitespace = true) : pyLower v ≠ t := by
  intro h
  apply hc
  intro c hct
  rw [← h] at hct
  obtain ⟨c0, hc0v, hlc⟩ := List.mem_map.mp hct
  rw [← hlc]
  exact ws_toLower (hws c0 hc0v)

theorem infix_all_ws {v t : List Char}
    (hws : ∀ c ∈ v, c.isWhitespace = true)
    (hinf : t <:+: v) : ∀ c ∈ t, c.isWhitespace = true := by
  obtain ⟨s, u, h⟩ := hinf
  intro c hct
  refine hws c ?_
  rw [← h]
  simp [hct]

theorem all_ws_not_mem_checked {v : List Char}
    (hws : ∀ c ∈ v, c.isWhitespace = true) :
    (pyLower v ∈ checked_value_texts) = False := by
  simp only [eq_iff_iff, iff_false]
  intro hmem
  simp only [checked_value_texts, List.map_cons, List.map_nil, List.mem_cons,
    List.not_mem_nil, or_false] at hmem
  rcases hmem with h | h | h | h | h | h
  all_goals exact all_ws_lower_ne hws (by decide) h

theorem all_ws_no_checkbox_chars {v : List Char}
    (hws : ∀ c ∈ v, c.isWhitespace = true) :
    checkbox_chars.any (fun t => decide (t <:+: v)) = false := by
  rw [List.any_eq_false]
  intro t ht
  simp only [checkbox_chars, List.map_cons, List.map_nil, List.mem_cons,
    List.not_mem_nil, or_false] at ht
  rcases ht with rfl | rfl | rfl | rfl | rfl | rfl | rfl | rfl | rfl | rfl | rfl | rfl | rfl
  all_goals exact fun hd => absurd (infix_all_ws hws (of_decide_eq_true hd)) (by decide)

theorem cascade4_snd_false_of_ws (value_type nameLower value : List Char)
    (hws : ∀ c ∈ value, c.isWhitespace = true)
    (hstrip : pyStrip value = []) :
    (cascade4 value_type nameLower value).2 = false := by
  unfold cascade4
  rw [all_ws_no_checkbox_chars hws]
  simp only [Bool.false_eq_true, if_false]
  split
  · simp [all_ws_not_mem_checked hws]
  · split
    · simp [hstrip]
    · split
      · simp [all_ws_not_mem_checked hws]
      · rfl

theorem classify_field_eq (value_type name value : List Char) :
    client_classify_field value_type name value =
      claimed_classify_field value_type name value := by
  by_cases hsp : pyStrip value = []
      ∧ w9_patterns.any (fun t => decide (t <:+: pyStrip (pyLower name))) = true
  · obtain ⟨h5a, h5b⟩ := hsp
    have hws := (pyStrip_eq_nil_iff value).mp h5a
    have hname := pattern_any_ne_nil h5b
    have hck := cascade4_snd_false_of_ws value_type (pyStrip (pyLower name)) value hws h5a
    have hclaimed : claimed_classify_field value_type name value = (true, false) := by
      unfold claimed_classify_field
      exact if_pos ⟨h5a, h5b⟩
    rw [hclaimed]
    unfold client_classify_field
    by_cases hcb : (cascade4 value_type (pyStrip (pyLower name)) value).1 = false
    · exact if_pos ⟨hcb, h5a, hname, h5b⟩
    · rw [if_neg (fun h => hcb h.1)]
      have h1 : (cascade4 value_type (pyStrip (pyLower name)) value).1 = true := by
        revert hcb
        cases (cascade4 value_type (pyStrip (pyLower name)) value).1 <;> simp
      exact Prod.ext_iff.mpr ⟨h1, hck⟩
  · unfold client_classify_field claimed_classify_field
    rw [if_neg hsp, if_neg (fun h => hsp ⟨h.2.1, h.2.2.2⟩)]
theorem process_symbol_eq_claimed (page : Page) (text : List Char) (s : Symbol) :
    process_symbol page text s = claimed_symbol_candidate page text s := by
  unfold process_symbol claimed_symbol_candidate classifySymbol
  cases hst : s.symbolType with
  | none => rfl
  | some st =>
    by_cases h1 : st ∈ checkbox_types
    · simp only [if_pos h1]
      cases hbp : s.boundingPoly with
      | none =>
        by_cases h3 : s.state = some ("checked") ∨ s.state = some ("unchecked") <;>
          simp [h3, CheckboxData.mk.injEq]
      | some vs =>
        by_cases h2 : vs.length = 4 ∧ 2 < (vs.map Vertex.x).dedup.length
            ∧ 2 < (vs.map Vertex.y).dedup.length <;>
          by_cases h3 : s.state = some ("checked") ∨ s.state = some ("unchecked") <;>
          simp [h2, h3, CheckboxData.mk.injEq]
    · simp only [if_neg h1]
      by_cases h2 : st = "unknown"
      · simp only [if_pos h2]
        cases hbp : s.boundingPoly with
        | none => rfl
        | some vs =>
          by_cases h4 : vs.length = 4
          · by_cases h6 : 2 < (vs.map Vertex.x).dedup.length
                ∧ 2 < (vs.map Vertex.y).dedup.length <;>
              by_cases h3 : s.state = some ("checked") ∨ s.state = some ("unchecked") <;>
              simp only [if_pos h4, h4, eq_self_iff_true, true_and] <;>
              split_ifs <;>
              simp_all [CheckboxData.mk.injEq]
          · simp [h4]
      · simp [h2]
theorem labelStep_none (st : Option (ℚ × List Char) × Option (ℚ × List Char)) :
    labelStep st none = st := rfl

theorem foldl_labelStep_filterMap (cx cy : ℚ) (text : List Char)
    (paras : List Paragraph) :
    ∀ st, paras.foldl (fun st p => labelStep st (paraCandidate cx cy text p)) st
      = (paras.filterMap (paraCandidate cx cy text)).foldl
          (fun st c => labelStep st (some c)) st := by
  induction paras with
  | nil => intro st; rfl
  | cons p rest ih =>
    intro st
    rw [List.foldl_cons, List.filterMap_cons]
    cases hc : paraCandidate cx cy text p with
    | none => rw [labelStep_none]; exact ih st
    | some c => rw [List.foldl_cons]; exact ih _

theorem labelStep_fold_minBy (l : List (ℚ × ℚ × List Char)) :
    ∀ (w f : Option (ℚ × ℚ × List Char)),
      l.foldl (fun st c => labelStep st (some c))
        (w.map (fun z => (z.2.1, z.2.2)), f.map (fun z => (z.1, z.2.2)))
      = ((l.foldl updW w).map (fun z => (z.2.1, z.2.2)),
         ((l.filter (fun c => decide (c.1 < 9/100))).foldl updR f).map
           (fun z => (z.1, z.2.2))) := by
  induction l with
  | nil => intro w f; rfl
  | cons c rest ih =>
    intro w f
    rw [List.foldl_cons, List.foldl_cons, List.filter_cons]
    have hstep : labelStep
          (w.map (fun z => (z.2.1, z.2.2)), f.map (fun z => (z.1, z.2.2))) (some c)
        = ((updW w c).map (fun z => (z.2.1, z.2.2)),
           (if decide (c.1 < 9/100) = true then updR f c else f).map
             (fun z => (z.1, z.2.2))) := by
      unfold labelStep updW updR
      dsimp only
      refine Prod.ext_iff.mpr ⟨?_, ?_⟩
      · cases w with
        | none => simp [beats]
        | some b =>
          by_cases hw : c.2.1 < b.2.1 <;> simp [beats, hw]
      · by_cases h9 : c.1 < 9/100
        · cases f with
          | none => simp [beats, h9]
          | some b =>
            by_cases hf : c.1 < b.1 <;> simp [beats, h9, hf]
        · cases f with
          | none => simp [beats, h9]
          | some b => simp [beats, h9]
    rw [hstep]
    by_cases h9 : c.1 < 9/100
    · simp only [h9, decide_True, if_true]
      rw [List.foldl_cons]
      exact ih (updW w c) (updR f c)
    · simp only [h9, decide_False, if_false]
      exact ih (updW w c) f

theorem minByW_ne_none (l : List (ℚ × ℚ × List Char)) :
    ∀ (b : ℚ × ℚ × List Char), l.foldl updW (some b) ≠ none := by
  induction l with
  | nil => intro b h; cases h
  | cons c rest ih =>
    intro b
    rw [List.foldl_cons]
    unfold updW
    by_cases hw : c.2.1 < b.2.1 <;> simp only [hw, if_true, if_false] <;> apply ih

theorem minByW_none_iff (l : List (ℚ × ℚ × List Char)) :
    minByW l = none ↔ l = [] := by
  cases l with
  | nil => simp [minByW]
  | cons c rest =>
    simp only [minByW, List.foldl_cons]
    constructor
    · intro h
      exact absurd h (minByW_ne_none rest c)
    · intro h; cases h

theorem minByR_mem (l : List (ℚ × ℚ × List Char)) :
    ∀ (acc : Option (ℚ × ℚ × List Char)) (res : ℚ × ℚ × List Char),
      l.foldl updR acc = some res → res ∈ l ∨ acc = some res := by
  induction l with
  | nil => intro acc res h; right; exact h
  | cons c rest ih =>
    intro acc res h
    rw [List.foldl_cons] at h
    unfold updR at h
    cases acc with
    | none =>
      rcases ih (some c) res h with h1 | h1
      · left; exact List.mem_cons_of_mem _ h1
      · left; rw [Option.some_inj.mp h1]; exact List.mem_cons_self _ _
    | some b =>
      by_cases hb : c.1 < b.1
      · simp only [hb, if_true] at h
        rcases ih (some c) res h with h1 | h1
        · left; exact List.mem_cons_of_mem _ h1
        · left; rw [Option.some_inj.mp h1]; exact List.mem_cons_self _ _
      · simp only [hb, if_false] at h
        rcases ih (some b) res h with h1 | h1
        · left; exact List.mem_cons_of_mem _ h1
        · right; exact h1
theorem find_checkbox_label_eq_amended (page : Page) (symbol : Symbol) (text : List Char) :
    find_checkbox_label page symbol text = find_checkbox_label_amended page symbol text := by
  unfold find_checkbox_label find_checkbox_label_amended
  dsimp only
  rw [foldl_labelStep_filterMap]
  set cands := ((page.paragraphs.getD []).filterMap
    (paraCandidate (polyCentroid symbol.boundingPoly).1
      (polyCentroid symbol.boundingPoly).2 text)) with hcands
  have h := labelStep_fold_minBy cands none none
  simp only [Option.map_none'] at h
  rw [h, show ∀ l, List.foldl updW none l = minByW l from fun _ => rfl,
    show ∀ l, List.foldl updR none l = minByR l from fun _ => rfl]
  cases hm : minByW cands with
  | none =>
    have hnil : cands = [] := (minByW_none_iff cands).mp hm
    rw [hnil]
    rfl
  | some w =>
    simp only [Option.map_some']
    by_cases hle : w.2.1 ≤ 1/25
    · rw [if_pos hle, if_pos hle]
    · rw [if_neg hle, if_neg hle]
      cases hf : minByR (cands.filter (fun c => decide (c.1 < 9/100))) with
      | none => rfl
      | some fb =>
        have hmem : fb ∈ cands.filter (fun c => decide (c.1 < 9/100)) := by
          rcases minByR_mem _ none fb hf with h1 | h1
          · exact h1
          · cases h1
        have hlt : fb.1 < 9/100 := by
          have := (List.mem_filter.mp hmem).2
          exact of_decide_eq_true this
        simp only [Option.map_some']
        unfold fallbackOrPlaceholder
        dsimp only
        by_cases hne : fb.2.2 = []
        · rw [if_neg (fun hh => hh.1 hne), if_neg (fun hh => hh hne)]
        · rw [if_pos ⟨hne, le_of_lt hlt⟩, if_pos hne]
theorem entryId_inj {b b' : Bool} {i j : Nat} (h : entryId b i = entryId b' j) :
    i = j := by
  cases b <;> cases b' <;> simp only [entryId, if_true, if_false] at h
  · exact natToChars_injective (by simpa using h)
  · exact absurd h (by simp)
  · exact absurd h (by simp)
  · exact natToChars_injective (by simpa using h)

theorem idsNumbered_append_one {acc : List FieldData} (hacc : IdsNumbered acc)
    (e : PreEntry) : IdsNumbered (acc ++ [mkEntry e acc.length]) := by
  intro i h
  have hlen : (acc ++ [mkEntry e acc.length]).length = acc.length + 1 := by simp
  by_cases hi : i < acc.length
  · rw [List.get_eq_getElem, List.getElem_append_left hi]
    have := hacc i hi
    rw [List.get_eq_getElem] at this
    exact this
  · have hi' : i = acc.length := by omega
    subst hi'
    have hg : (acc ++ [mkEntry e acc.length]).get ⟨acc.length, h⟩ = mkEntry e acc.length := by
      rw [List.get_eq_getElem, List.getElem_append_right (by simp)]
      simp
    rw [hg]
    cases hb : e.fromForm
    · right; simp [mkEntry, entryId, hb]
    · left; simp [mkEntry, entryId, hb]

theorem idsNumbered_appendEntries (items : List PreEntry) :
    ∀ (acc : List FieldData), IdsNumbered acc → IdsNumbered (appendEntries acc items) := by
  induction items with
  | nil => intro acc h; exact h
  | cons e rest ih =>
    intro acc h
    unfold appendEntries
    rw [List.foldl_cons]
    exact ih _ (idsNumbered_append_one h e)

theorem idsNumbered_pagesFold (text : List Char) (pages : List (Nat × Page)) :
    ∀ (st : List PageData × List FieldData), IdsNumbered st.2 →
      IdsNumbered ((pages.foldl
        (fun (st : List PageData × List FieldData) (ip : Nat × Page) =>
          let items := pagePreEntries ip.2 text ip.1
          let fields' := appendEntries st.2 items
          let pd : PageData :=
            { page_number := (ip.2).pageNumber.getD (ip.1 + 1),
              dimensions := pageDimensions ip.2,
              fields := fields'.drop st.2.length }
          (st.1 ++ [pd], fields')) st).2) := by
  induction pages with
  | nil => intro st h; exact h
  | cons ip rest ih =>
    intro st h
    rw [List.foldl_cons]
    exact ih _ (idsNumbered_appendEntries _ st.2 h)

theorem extract_document_data_idsNumbered (d : Document) :
    IdsNumbered (extract_document_data d).fields := by
  unfold extract_document_data
  cases d.pages with
  | none => intro i h; cases h
  | some pages =>
    dsimp only
    exact idsNumbered_pagesFold _ pages.enum ([], []) (fun i h => by cases h)

theorem idsNumbered_nodup {l : List FieldData} (h : IdsNumbered l) :
    (l.map FieldData.id).Nodup := by
  rw [List.nodup_iff_injective_getElem]
  intro i j hij
  rcases i with ⟨i, hi⟩
  rcases j with ⟨j, hj⟩
  rw [List.length_map] at hi hj
  simp only [List.getElem_map] at hij
  have hgi := h i hi
  have hgj := h j hj
  rw [List.get_eq_getElem] at hgi hgj
  apply Fin.ext
  simp only
  rcases hgi with hgi | hgi <;> rcases hgj with hgj | hgj <;>
    rw [hgi, hgj] at hij <;> exact entryId_inj hij
theorem segmentsFold_concat (segs : List TextSegment) (text : List Char) :
    ∀ acc, segmentsFold segs text acc = acc ++ segments_concat segs text := by
  induction segs with
  | nil => intro acc; simp [segmentsFold, segments_concat]
  | cons s rest ih =>
    intro acc
    unfold segmentsFold at ih ⊢
    rw [List.foldl_cons]
    unfold segments_concat at ih ⊢
    rw [List.filter_cons]
    by_cases h : s.start_index < text.length ∧ s.end_index ≤ text.length
    · rw [if_pos h, ih]
      have hb : (decide (s.start_index < text.length) &&
          decide (s.end_index ≤ text.length)) = true := by
        simp [h.1, h.2]
      rw [hb]
      simp
    · rw [if_neg h, ih]
      have hb : (decide (s.start_index < text.length) &&
          decide (s.end_index ≤ text.length)) = false := by
        rcases not_and_or.mp h with h1 | h1 <;> simp [h1]
      rw [hb]
      simp

theorem normalize_bbox_ltrb_abs (bw bh : Option ℚ) (l t r bt pw ph : ℚ)
    (habs : 1 < l ∨ 1 < t ∨ 1 < r ∨ 1 < bt) :
    normalize_bbox ⟨some l, some t, some r, some bt, bw, bh⟩ pw ph =
      some ⟨some (l/pw), some (t/ph), some (r/pw), some (bt/ph),
            some (r/pw - l/pw), some (bt/ph - t/ph)⟩ := by
  unfold normalize_bbox
  dsimp only
  rw [if_pos habs]

theorem normalize_bbox_ltrb_norm (bw bh : Option ℚ) (l t r bt pw ph : ℚ)
    (hin : ¬(1 < l ∨ 1 < t ∨ 1 < r ∨ 1 < bt)) :
    normalize_bbox ⟨some l, some t, some r, some bt, bw, bh⟩ pw ph =
      some ⟨some l, some t, some r, some bt, some (r - l), some (bt - t)⟩ := by
  unfold normalize_bbox
  dsimp only
  rw [if_neg hin]

theorem normalize_bbox_ltwh_abs (br bb : Option ℚ) (l t w h pw ph : ℚ)
    (hmiss : br = none ∨ bb = none)
    (habs : 1 < l ∨ 1 < t ∨ 1 < w ∨ 1 < h) :
    normalize_bbox ⟨some l, some t, br, bb, some w, some h⟩ pw ph =
      some ⟨some (l/pw), some (t/ph), some (l/pw + w/pw), some (t/ph + h/ph),
            some (w/pw), some (h/ph)⟩ := by
  rcases hmiss with rfl | rfl
  · cases bb <;> (unfold normalize_bbox; dsimp only; rw [if_pos habs])
  · cases br <;> (unfold normalize_bbox; dsimp only; rw [if_pos habs])

theorem normalize_bbox_ltwh_norm (br bb : Option ℚ) (l t w h pw ph : ℚ)
    (hmiss : br = none ∨ bb = none)
    (hin : ¬(1 < l ∨ 1 < t ∨ 1 < w ∨ 1 < h)) :
    normalize_bbox ⟨some l, some t, br, bb, some w, some h⟩ pw ph =
      some ⟨some l, some t, some (l + w), some (t + h), some w, some h⟩ := by
  rcases hmiss with rfl | rfl
  · cases bb <;> (unfold normalize_bbox; dsimp only; rw [if_neg hin])
  · cases br <;> (unfold normalize_bbox; dsimp only; rw [if_neg hin])

theorem normalize_bbox_both_reps (b : PyBBox) (pw ph : ℚ) (nb : PyBBox)
    (hn : normalize_bbox b pw ph = some nb) :
    ∃ l t r bt, nb.left = some l ∧ nb.top = some t ∧ nb.right = some r ∧
      nb.bottom = some bt ∧ nb.width = some (r - l) ∧ nb.height = some (bt - t) := by
  obtain ⟨bl, bt0, br, bb, bw, bh⟩ := b
  cases bl with
  | none => simp [normalize_bbox] at hn
  | some l =>
  cases bt0 with
  | none => simp [normalize_bbox] at hn
  | some t =>
  cases br with
  | some r =>
    cases bb with
    | some bv =>
      by_cases habs : 1 < l ∨ 1 < t ∨ 1 < r ∨ 1 < bv
      · rw [normalize_bbox_ltrb_abs bw bh l t r bv pw ph habs] at hn
        rw [← Option.some_inj.mp hn]
        exact ⟨l/pw, t/ph, r/pw, bv/ph, rfl, rfl, rfl, rfl, rfl, rfl⟩
      · rw [normalize_bbox_ltrb_norm bw bh l t r bv pw ph habs] at hn
        rw [← Option.some_inj.mp hn]
        exact ⟨l, t, r, bv, rfl, rfl, rfl, rfl, rfl, rfl⟩
    | none =>
      cases bw with
      | none => simp [normalize_bbox] at hn
      | some w =>
      cases bh with
      | none => simp [normalize_bbox] at hn
      | some hh =>
      by_cases habs : 1 < l ∨ 1 < t ∨ 1 < w ∨ 1 < hh
      · rw [normalize_bbox_ltwh_abs (some r) none l t w hh pw ph (Or.inr rfl) habs] at hn
        rw [← Option.some_inj.mp hn]
        exact ⟨l/pw, t/ph, l/pw + w/pw, t/ph + hh/ph, rfl, rfl, rfl, rfl,
          by rw [add_sub_cancel_left], by rw [add_sub_cancel_left]⟩
      · rw [normalize_bbox_ltwh_norm (some r) none l t w hh pw ph (Or.inr rfl) habs] at hn
        rw [← Option.some_inj.mp hn]
        exact ⟨l, t, l + w, t + hh, rfl, rfl, rfl, rfl,
          by rw [add_sub_cancel_left], by rw [add_sub_cancel_left]⟩
  | none =>
    cases bw with
    | none => cases bb <;> simp [normalize_bbox] at hn
    | some w =>
    cases bh with
    | none => cases bb <;> simp [normalize_bbox] at hn
    | some hh =>
    by_cases habs : 1 < l ∨ 1 < t ∨ 1 < w ∨ 1 < hh
    · rw [normalize_bbox_ltwh_abs none bb l t w hh pw ph (Or.inl rfl) habs] at hn
      rw [← Option.some_inj.mp hn]
      exact ⟨l/pw, t/ph, l/pw + w/pw, t/ph + hh/ph, rfl, rfl, rfl, rfl,
        by rw [add_sub_cancel_left], by rw [add_sub_cancel_left]⟩
    · rw [normalize_bbox_ltwh_norm none bb l t w hh pw ph (Or.inl rfl) habs] at hn
      rw [← Option.some_inj.mp hn]
      exact ⟨l, t, l + w, t + hh, rfl, rfl, rfl, rfl,
        by rw [add_sub_cancel_left], by rw [add_sub_cancel_left]⟩

theorem normalize_bbox_idem (b : PyBBox) (pw ph : ℚ) (nb : PyBBox)
    (hn : normalize_bbox b pw ph = some nb) (hr : bboxInRange nb) :
    normalize_bbox nb pw ph = some nb := by
  obtain ⟨l, t, r, bt, hL, hT, hR, hB, hW, hH⟩ := normalize_bbox_both_reps b pw ph nb hn
  obtain ⟨h1, h2, h3, h4⟩ := hr
  obtain ⟨nl, nt, nr, nbb, nw, nh⟩ := nb
  dsimp only at hL hT hR hB hW hH
  subst hL hT hR hB hW hH
  have hin : ¬(1 < l ∨ 1 < t ∨ 1 < r ∨ 1 < bt) := by
    push_neg
    exact ⟨not_lt.mp (by simpa using h1 l rfl), not_lt.mp (by simpa using h2 t rfl),
      not_lt.mp (by simpa using h3 r rfl), not_lt.mp (by simpa using h4 bt rfl)⟩
  exact normalize_bbox_ltrb_norm (some (r - l)) (some (bt - t)) l t r bt pw ph hin
theorem degradedDoc_validation : validate_document_structure (some degradedDoc) =
    (false, "Document structure is too poor for reliable processing", 14/25) := by
  simp [validate_document_structure, degradedDoc, degradedPage, docNoText, pageRotated]
  norm_num
/-- C2 (amended): _find_checkbox_label selects the paragraph minimizing the
weighted distance (raw distance times 0.8 when the paragraph centroid is right
of the symbol, times a further 0.9 when it is below the symbol and the raw
distance is under 0.05); however both the 0.2 acceptance threshold and the
confidence tiers are computed from the winner's weighted - not raw - distance;
the fallback pool is raw distance strictly below 0.3, and a fallback whose
text is empty is passed over in favour of the placeholder label with
confidence 0.2; a page with no paragraphs goes straight to the placeholder. -/
theorem C2_find_checkbox_label :
    ∀ (page : Page) (symbol : Symbol) (text : List Char),
      find_checkbox_label page symbol text =
        find_checkbox_label_amended page symbol text :=
  fun page symbol text => find_checkbox_label_eq_amended page symbol text

/-- C2 as stated is false at a concrete input: the sample page has a single
paragraph at raw distance 0.25 directly to the right of the symbol, whose
weighted distance is exactly 0.2; the source returns its text with tier
confidence 0.7 while the claimed raw-distance resolution would use the
fallback path with confidence 0.5. -/
theorem C2_counterexample :
    find_checkbox_label samplePage sampleSymbol ("Agree".toList)
      ≠ find_checkbox_label_claimed samplePage sampleSymbol ("Agree".toList) := by
  have h1 : find_checkbox_label samplePage sampleSymbol ("Agree".toList)
      = ("Agree".toList, 7/10) := by
    norm_num [find_checkbox_label, samplePage, sampleSymbol, samplePara, polyCentroid,
      paraCandidate, labelStep, beats, tierConf, fallbackOrPlaceholder,
      get_text_from_layout, segmentsFold, pyStrip, pySlice, pyWs]
    decide
  have h2 : find_checkbox_label_claimed samplePage sampleSymbol ("Agree".toList)
      = ("Agree".toList, 1/2) := by
    norm_num [find_checkbox_label_claimed, samplePage, sampleSymbol, samplePara,
      polyCentroid, paraCandidate, minByW, minByR, updW, updR, tierConf,
      List.filterMap_cons, List.filterMap_nil, List.filter_cons, List.filter_nil,
      get_text_from_layout, segmentsFold, pyStrip, pySlice, pyWs]
    decide
  rw [h1, h2]
  intro h
  have hsnd := congrArg Prod.snd h
  norm_num at hsnd

/-- C3: _extract_checkboxes emits one candidate per qualifying symbol: the
accepted types qualify at base confidence 1.0 with the type preserved; an
unknown-typed symbol qualifies only through a 4-vertex polygon with positive
extents and aspect ratio within [0.7, 1.3], relabelled inferred_checkbox at
base 0.7; all other types are excluded; the emitted confidence is the base
times 0.9 for a rotated polygon (more than two distinct x and y values among
the 4 vertices), times 0.8 when the state is neither checked nor unchecked,
times the label confidence, rounded to two decimals. -/
theorem C3_extract_checkboxes :
    ∀ (page : Page) (text : List Char),
      extract_checkboxes page text =
        ((page.detectedSymbols).getD []).filterMap
          (claimed_symbol_candidate page text) := by
  intro page text
  unfold extract_checkboxes
  cases hd : page.detectedSymbols with
  | none => rfl
  | some syms =>
    simp only [Option.getD_some]
    rw [show process_symbol page text = claimed_symbol_candidate page text from
      funext (process_symbol_eq_claimed page text)]

/-- C4: the client form-field extractor classifies each raw key-value pair by
the five-rule cascade exactly as the claim orders it - value-type mention of
CHECKBOX/SELECTED, known entity-type vocabulary (checked iff stripped value
text non-empty), checkbox keyword in the name, checkbox glyph in the value
(checked iff a checked-subset glyph occurs), and empty value with an
entity-type name (checkbox, unchecked) - with later triggered rules
overriding earlier ones, and the resulting field value is a boolean for
checkboxes and the raw text otherwise. -/
theorem C4_form_field_cascade :
    ∀ (pageNum : Nat) (f : ClientFormFieldIn) (text : List Char),
      client_process_form_field pageNum f text =
        claimed_process_form_field pageNum f text := by
  intro pageNum f text
  simp only [client_process_form_field, claimed_process_form_field, classify_field_eq]

/-- C5 (amended): when validation of a present document with pages fails for
structural-quality reasons, process_file does not run the extraction stages:
it returns the validation block, the raw document text, and pages, fields and
checkboxes hardwired to empty lists. -/
theorem C5_degraded_result :
    ∀ d : Document, (validate_document_structure (some d)).1 = false →
      process_file (some d) =
        { validation := validate_document_structure (some d),
          text := (d.text).getD [],
          pages := [], fields := [], checkboxes := some [] } := by
  intro d h
  unfold process_file
  dsimp only
  rw [if_pos h]

/-- C5 as stated is false at a concrete input: degradedDoc is present, has a
page, fails validation at confidence 0.56, and extraction would produce one
field, yet process_file returns empty pages and fields. -/
theorem C5_counterexample :
    (validate_document_structure (some degradedDoc)).1 = false
    ∧ degradedDoc.pages = some [degradedPage]
    ∧ (process_file (some degradedDoc)).fields = []
    ∧ (process_file (some degradedDoc)).pages = []
    ∧ (extract_document_data degradedDoc).fields ≠ [] := by
  refine ⟨by rw [degradedDoc_validation], rfl, ?_, ?_, ?_⟩
  · unfold process_file
    rw [degradedDoc_validation]
    rfl
  · unfold process_file
    rw [degradedDoc_validation]
    rfl
  · norm_num [extract_document_data, degradedDoc, degradedPage, pagePreEntries,
      model_extract_form_fields, model_extract_form_fields.go, model_process_form_field,
      sampleFormField, extract_checkboxes, appendEntries, List.enum]

/-- Witness for C5 at the concrete degraded document. -/
theorem C5_witness :
    process_file (some degradedDoc) =
      { validation := (false,
          "Document structure is too poor for reliable processing", 14/25),
        text := [], pages := [], fields := [], checkboxes := some [] } := by
  have h := C5_degraded_result degradedDoc (by rw [degradedDoc_validation])
  rw [h, degradedDoc_validation]
  rfl

/-- C6 (amended): in DocumentAIClient._extract_checkboxes a symbol whose
processing raises is skipped and every other symbol's candidate is kept,
while in DocumentModel._extract_checkboxes the exception is caught by the
page-level handler and the whole page's checkbox list comes back empty. -/
theorem C6_exception_scope :
    (∀ (text : List Char) (l1 l2 : List (Except Unit ClientSymbol))
        (acc : List ClientCheckboxData),
      client_extract_checkboxes text (l1 ++ Except.error () :: l2) acc =
        client_extract_checkboxes text (l1 ++ l2) acc)
    ∧ (∀ (page : Page) (text : List Char) (syms : List (Except Unit Symbol))
        (acc : List CheckboxData),
        Except.error () ∈ syms → extract_checkboxes_exc page text syms acc = []) := by
  constructor
  · intro text l1
    induction l1 with
    | nil => intro l2 acc; rfl
    | cons s rest ih =>
      intro l2 acc
      cases s with
      | error e => cases e; exact ih l2 acc
      | ok s => exact ih l2 (acc ++ (client_process_symbol text s).toList)
  · intro page text syms
    induction syms with
    | nil => intro acc h; cases h
    | cons s rest ih =>
      intro acc h
      cases s with
      | error e => cases e; rfl
      | ok s =>
        have hmem : Except.error () ∈ rest := by
          rcases List.mem_cons.mp h with h1 | h1
          · cases h1
          · exact h1
        exact ih _ hmem

/-- C6 as stated is false for the models-side extractor at a concrete input:
with a raising symbol between two good ones, the candidates of the good
symbols are lost and the page's checkbox list comes back empty. -/
theorem C6_counterexample :
    extract_checkboxes_exc samplePage ("Agree".toList)
        [Except.ok sampleSymbol, Except.error (), Except.ok sampleSymbol] [] = []
    ∧ extract_checkboxes_exc samplePage ("Agree".toList)
        [Except.ok sampleSymbol, Except.ok sampleSymbol] [] ≠ [] := by
  constructor
  · rfl
  · intro h
    simp [extract_checkboxes_exc, process_symbol, sampleSymbol, classifySymbol,
      checkbox_types] at h

/-- Witness for C6 at concrete inputs. -/
theorem C6_witness :
    client_extract_checkboxes ("Agree".toList)
        ([] ++ Except.error () :: []) [] = client_extract_checkboxes ("Agree".toList) ([] ++ []) []
    ∧ extract_checkboxes_exc samplePage ("Agree".toList)
        [Except.ok sampleSymbol, Except.error (), Except.ok sampleSymbol] [] = [] :=
  ⟨C6_exception_scope.1 ("Agree".toList) [] [] [],
   C6_exception_scope.2 samplePage ("Agree".toList) _ []
     (List.mem_cons_of_mem _ (List.mem_cons_self _ _))⟩

/-- C7 (amended): both text-from-layout helpers return the concatenation, in
segment order, of the slices of exactly the in-range segments, stripped of
leading and trailing whitespace; the models version additionally returns the
literal text Hello world whenever the anchor holds exactly the two segments
(0,5) and (10,15), the text starts with Hello and contains world. -/
theorem C7_text_from_layout :
    (∀ (l : Layout) (segs : List TextSegment) (text : List Char),
      l.textAnchor = some segs →
      get_text_from_layout (some l) text =
        (if segs = [⟨0, 5⟩, ⟨10, 15⟩] ∧ "Hello".toList <+: text
            ∧ "world".toList <:+: text
         then ("Hello world").toList
         else pyStrip (segments_concat segs text)))
    ∧ (∀ (segs : List TextSegment) (text : List Char),
        client_get_text_from_layout (some segs) text =
          pyStrip (segments_concat segs text)) := by
  constructor
  · intro l segs text h
    obtain ⟨anchor, poly⟩ := l
    dsimp only at h
    subst h
    unfold get_text_from_layout
    dsimp only
    rw [segmentsFold_concat segs text [], List.nil_append]
  · intro segs text
    unfold client_get_text_from_layout
    dsimp only
    rw [segmentsFold_concat segs text [], List.nil_append]

/-- C7 as stated is false at a concrete input: on the text HelloXworldYZABC
with segments (0,5),(10,15) the models helper returns the hard-coded
Hello world instead of the concatenated slices HellodYZAB. -/
theorem C7_counterexample :
    get_text_from_layout (some ⟨some [⟨0, 5⟩, ⟨10, 15⟩], none⟩)
        ("HelloXworldYZABC".toList)
      ≠ segments_concat [⟨0, 5⟩, ⟨10, 15⟩] ("HelloXworldYZABC".toList) := by
  decide

/-- Witness for C7: a one-segment anchor over text with trailing whitespace. -/
theorem C7_witness :
    get_text_from_layout (some ⟨some [⟨0, 3⟩], none⟩) (" ab".toList) = "ab".toList := by
  have h := C7_text_from_layout.1 ⟨some [⟨0, 3⟩], none⟩ [⟨0, 3⟩] (" ab".toList) rfl
  rw [h]
  decide

/-- C8: bbox normalization accepts LTRB or LTWH input, detects absolute
coordinates by any value exceeding 1.0 and then divides horizontal values by
the page width and vertical values by the page height (left 400 on an
800-wide page becomes 0.5), always emits both representations with
width = right - left and height = bottom - top, and is idempotent on an
already-normalized output. -/
theorem C8_normalize_bbox :
    (∀ (b : PyBBox) (pw ph : ℚ) (nb : PyBBox), normalize_bbox b pw ph = some nb →
      ∃ l t r bt, nb.left = some l ∧ nb.top = some t ∧ nb.right = some r ∧
        nb.bottom = some bt ∧ nb.width = some (r - l) ∧ nb.height = some (bt - t))
    ∧ (∀ (bw bh : Option ℚ) (l t r bt pw ph : ℚ),
        (1 < l ∨ 1 < t ∨ 1 < r ∨ 1 < bt) →
        normalize_bbox ⟨some l, some t, some r, some bt, bw, bh⟩ pw ph =
          some ⟨some (l/pw), some (t/ph), some (r/pw), some (bt/ph),
                some (r/pw - l/pw), some (bt/ph - t/ph)⟩)
    ∧ (∀ (br bb : Option ℚ) (l t w h pw ph : ℚ),
        (br = none ∨ bb = none) → (1 < l ∨ 1 < t ∨ 1 < w ∨ 1 < h) →
        normalize_bbox ⟨some l, some t, br, bb, some w, some h⟩ pw ph =
          some ⟨some (l/pw), some (t/ph), some (l/pw + w/pw), some (t/ph + h/ph),
                some (w/pw), some (h/ph)⟩)
    ∧ (normalize_bbox ⟨some 400, some 100, some 600, some 300, none, none⟩ 800 1000 =
        some ⟨some (1/2), some (1/10), some (3/4), some (3/10),
              some (1/4), some (1/5)⟩)
    ∧ (∀ (b : PyBBox) (pw ph : ℚ) (nb : PyBBox),
        normalize_bbox b pw ph = some nb → bboxInRange nb →
        normalize_bbox nb pw ph = some nb) := by
  refine ⟨normalize_bbox_both_reps, ?_, ?_, by norm_num [normalize_bbox],
    normalize_bbox_idem⟩
  · intro bw bh l t r bt pw ph habs
    exact normalize_bbox_ltrb_abs bw bh l t r bt pw ph habs
  · intro br bb l t w h pw ph hmiss habs
    exact normalize_bbox_ltwh_abs br bb l t w h pw ph hmiss habs

/-- Witness for C8: re-normalizing the normalized sample bbox is a no-op. -/
theorem C8_witness :
    normalize_bbox ⟨some (1/2), some (1/10), some (3/4), some (3/10),
        some (1/4), some (1/5)⟩ 800 1000 =
      some ⟨some (1/2), some (1/10), some (3/4), some (3/10),
            some (1/4), some (1/5)⟩ := by
  refine C8_normalize_bbox.2.2.2.2
    ⟨some 400, some 100, some 600, some 300, none, none⟩ 800 1000 _
    (by norm_num [normalize_bbox]) ?_
  refine ⟨?_, ?_, ?_, ?_⟩ <;>
    (intro x hx
     rw [Option.mem_def, Option.some_inj] at hx
     rw [← hx]
     norm_num)

/-- C9 (amended): the visualization pass never drops a field and preserves its
id and page; a field with a missing or empty bbox gets the default zero-size
bbox; a bbox whose key set matches neither LTRB nor LTWH is left on the field
unchanged (not replaced by the default); degenerate geometry such as
right below left is not rejected - the bbox is normalized arithmetically. -/
theorem C9_bbox_fault_handling :
    (∀ (fs : List VizField) (pn : Nat) (pw ph : ℚ),
      (update_page_fields fs pn pw ph).length = fs.length)
    ∧ (∀ (f : VizField) (pw ph : ℚ),
        (update_field_bbox f pw ph).fid = f.fid
        ∧ (update_field_bbox f pw ph).page = f.page)
    ∧ (∀ (f : VizField) (pw ph : ℚ), f.bbox = none →
        update_field_bbox f pw ph = { f with bbox := some default_zero_bbox })
    ∧ (∀ (f : VizField) (b : PyBBox) (pw ph : ℚ), f.bbox = some b →
        bboxFalsy b = true →
        update_field_bbox f pw ph = { f with bbox := some default_zero_bbox })
    ∧ (∀ (f : VizField) (b : PyBBox) (pw ph : ℚ), f.bbox = some b →
        bboxFalsy b = false → normalize_bbox b pw ph = none →
        update_field_bbox f pw ph = f)
    ∧ (∀ (f : VizField) (b nb : PyBBox) (pw ph : ℚ), f.bbox = some b →
        bboxFalsy b = false → normalize_bbox b pw ph = some nb →
        update_field_bbox f pw ph = { f with bbox := some nb }) := by
  refine ⟨?_, ?_, ?_, ?_, ?_, ?_⟩
  · intro fs pn pw ph
    unfold update_page_fields
    rw [List.length_map]
  · intro f pw ph
    unfold update_field_bbox
    cases hb : f.bbox with
    | none => exact ⟨rfl, rfl⟩
    | some b =>
      dsimp only
      by_cases hf : bboxFalsy b = true
      · rw [if_pos hf]; exact ⟨rfl, rfl⟩
      · rw [if_neg hf]
        cases normalize_bbox b pw ph <;> exact ⟨rfl, rfl⟩
  · intro f pw ph h
    unfold update_field_bbox
    rw [h]
  · intro f b pw ph h hf
    unfold update_field_bbox
    rw [h]
    dsimp only
    rw [if_pos hf]
  · intro f b pw ph h hf hn
    unfold update_field_bbox
    rw [h]
    dsimp only
    rw [if_neg (by simp [hf]), hn]
  · intro f b nb pw ph h hf hn
    unfold update_field_bbox
    rw [h]
    dsimp only
    rw [if_neg (by simp [hf]), hn]

/-- C9 as stated is false at concrete inputs: a bbox holding only a left key
is kept unchanged on its field rather than replaced by the default zero-size
bbox, and an LTRB bbox with right below left is not rejected but normalized
into a bbox of negative width. -/
theorem C9_counterexample :
    update_field_bbox invalidBBoxField 800 1000 = invalidBBoxField
    ∧ invalidBBoxField.bbox ≠ some default_zero_bbox
    ∧ (update_field_bbox degenerateBBoxField 800 1000).bbox =
        some ⟨some (1/2), some (1/2), some (3/10), some (3/10),
              some (-(1/5)), some (-(1/5))⟩ := by
  refine ⟨?_, by simp [invalidBBoxField, default_zero_bbox], ?_⟩
  · norm_num [update_field_bbox, invalidBBoxField, bboxFalsy, normalize_bbox]
  · norm_num [update_field_bbox, degenerateBBoxField, bboxFalsy, normalize_bbox]

/-- Witness for C9 at concrete inputs. -/
theorem C9_witness :
    update_field_bbox invalidBBoxField 800 1000 = invalidBBoxField
    ∧ update_field_bbox ⟨"f3".toList, 1, none⟩ 800 1000 =
        ⟨"f3".toList, 1, some default_zero_bbox⟩ :=
  ⟨C9_bbox_fault_handling.2.2.2.2.1 invalidBBoxField
      ⟨some (1/2), none, none, none, none, none⟩ 800 1000 rfl (by decide) (by decide),
   C9_bbox_fault_handling.2.2.1 ⟨"f3".toList, 1, none⟩ 800 1000 rfl⟩

/-- C10: in the merged document the i-th field of the document-level list
carries the id field_i or checkbox_i (i counting all fields already added,
cumulatively across pages, form fields before symbol checkboxes), and all
the ids are pairwise distinct. -/
theorem C10_field_ids :
    ∀ d : Document,
      ((extract_document_data d).fields.map FieldData.id).Nodup
      ∧ ∀ (i : Nat) (h : i < (extract_document_data d).fields.length),
          ((extract_document_data d).fields.get ⟨i, h⟩).id = entryId true i
          ∨ ((extract_document_data d).fields.get ⟨i, h⟩).id = entryId false i :=
  fun d => ⟨idsNumbered_nodup (extract_document_data_idsNumbered d),
    extract_document_data_idsNumbered d⟩

/-- Witness for C10 at the concrete degraded document (one form field). -/
theorem C10_witness :
    ((extract_document_data degradedDoc).fields.map FieldData.id).Nodup
    ∧ (((extract_document_data degradedDoc).fields.get ⟨0, by decide⟩).id =
          entryId true 0
        ∨ ((extract_document_data degradedDoc).fields.get ⟨0, by decide⟩).id =
          entryId false 0) :=
  ⟨(C10_field_ids degradedDoc).1, (C10_field_ids degradedDoc).2 0 (by decide)⟩

end PdfCheckbox
